import Mathlib

/-!
Verification development for the adaptive posting-time scheduler
(src/core/scheduler/smart_scheduler.py).

Embedding conventions:
- Python floats are modelled as rationals.
- Python datetimes (UTC) are modelled as integers counting seconds since
  the Unix epoch.  Python integer floor division and modulus correspond to
  the Lean operations / and % on Int, which agree with floor semantics for
  the positive divisors used here.
- The transcendental math.exp is modelled as an abstract parameter
  expFn applied to the same rational argument the source passes to it.
- Python dicts are modelled as association lists; updates replace the value
  at an existing key in place and append new keys at the end, which matches
  the insertion-order semantics of Python dicts.
-/

/-! ## Datetime model -/

/-- Days since the epoch of a UTC instant, mirroring Python datetime date
arithmetic (floor division, as both operands of / here behave on the
positive divisor 86400). -/
def epochDays (t : ℤ) : ℤ := t / 86400

/-- Seconds elapsed since midnight of the day containing t. -/
def secOfDay (t : ℤ) : ℤ := t % 86400

/-- The hour attribute of a Python datetime. -/
def hourOf (t : ℤ) : ℤ := secOfDay t / 3600

/-- Python datetime.weekday(): 0 = Monday .. 6 = Sunday.  The epoch day
1970-01-01 was a Thursday, hence the offset 3. -/
def weekdayOf (t : ℤ) : ℤ := (epochDays t + 3) % 7

/-- The day-of-month attribute of a Python datetime, computed from the
epoch day count by the standard civil-from-days conversion for the
proleptic Gregorian calendar. -/
def dayOfMonth (t : ℤ) : ℤ :=
  let z := epochDays t + 719468
  let era := z / 146097
  let doe := z - era * 146097
  let yoe := (doe - doe / 1460 + doe / 36524 - doe / 146096) / 365
  let doy := doe - (365 * yoe + yoe / 4 - yoe / 100)
  let mp := (5 * doy + 2) / 153
  doy - (153 * mp + 2) / 5 + 1

/-- Python: t + timedelta(days = k). -/
def addDays (t : ℤ) (k : ℤ) : ℤ := t + k * 86400

/-- Python: t.replace(hour = h, minute = 0, second = 0, microsecond = 0). -/
def replaceHour (t : ℤ) (h : ℤ) : ℤ := epochDays t * 86400 + h * 3600

/-- Python: (t1 - t2).days, the day count of a timedelta, which floors the
difference in seconds. -/
def timedeltaDays (t1 t2 : ℤ) : ℤ := (t1 - t2) / 86400

/-! ## Data model (the dataclasses of the source) -/

/-- TimeSlot dataclass.  The source stores last_updated as an ISO string,
empty when never set; it is modelled as an optional epoch timestamp. -/
structure TimeSlot where
  hour : ℤ
  day_of_week : ℤ
  platform : String
  score : ℚ
  confidence : ℚ
  sample_count : ℕ
  last_updated : Option ℤ
deriving Repr, DecidableEq

/-- PostMetrics dataclass.  Engagement counters are natural numbers. -/
structure PostMetrics where
  post_id : String
  platform : String
  publish_time : ℤ
  hour : ℤ
  day_of_week : ℤ
  engagement_rate : ℚ
  views : ℕ
  likes : ℕ
  comments : ℕ
  shares : ℕ
  saves : ℕ
  clicks : ℕ
  reach : ℕ
  impressions : ℕ
deriving Repr, DecidableEq

/-- A candidate entry produced by _get_candidate_slots (a dict in the
source). -/
structure Candidate where
  datetime : ℤ
  hour : ℤ
  day_of_week : ℤ
  score : ℚ
  confidence : ℚ
  base_slot : TimeSlot
deriving Repr, DecidableEq

/-- ScheduleRecommendation dataclass.  alternative_slots is None on the
fallback path and a list of candidates on the main path. -/
structure ScheduleRecommendation where
  platform : String
  datetime_utc : ℤ
  local_time : String
  score : ℚ
  confidence : ℚ
  reason : String
  alternative_slots : Option (List Candidate)
deriving Repr, DecidableEq

/-! ## Store model: self.time_slots as nested association lists -/

/-- The per-platform dict mapping (hour, day_of_week) to a TimeSlot. -/
abbrev SlotMap := List ((ℤ × ℤ) × TimeSlot)

/-- self.time_slots: platform name to SlotMap. -/
abbrev Store := List (String × SlotMap)

/-- Dict lookup on the outer platform map. -/
def dictGet (store : Store) (p : String) : Option SlotMap :=
  match store with
  | [] => none
  | (q, m) :: rest => if q = p then some m else dictGet rest p

/-- Dict lookup on a per-platform slot map. -/
def slotGet (m : SlotMap) (k : ℤ × ℤ) : Option TimeSlot :=
  match m with
  | [] => none
  | (k2, v) :: rest => if k2 = k then some v else slotGet rest k

/-- Dict assignment m[k] = v: replace in place, else append (Python dicts
keep insertion order). -/
def slotSet (m : SlotMap) (k : ℤ × ℤ) (v : TimeSlot) : SlotMap :=
  match m with
  | [] => [(k, v)]
  | (k2, w) :: rest => if k2 = k then (k2, v) :: rest else (k2, w) :: slotSet rest k v

/-- Dict assignment store[p] = m on the outer map. -/
def storeSet (store : Store) (p : String) (m : SlotMap) : Store :=
  match store with
  | [] => [(p, m)]
  | (q, w) :: rest => if q = p then (q, m) :: rest else (q, w) :: storeSet rest p m

/-! ## Platform defaults and default initialization -/

/-- self.platform_defaults, verbatim from the constructor. -/
def platform_defaults : List (String × List (ℤ × ℤ)) :=
  [ ("instagram", [(19, 0), (19, 1), (19, 2), (19, 3), (19, 4)])
  , ("youtube",   [(20, 6), (20, 0), (15, 6), (15, 0), (18, 2)])
  , ("tiktok",    [(21, 1), (21, 2), (21, 3), (19, 4), (19, 5)])
  , ("twitter",   [(9, 1), (9, 2), (9, 3), (17, 1), (17, 2)])
  , ("linkedin",  [(8, 1), (8, 2), (8, 3), (12, 1), (17, 2)]) ]

/-- Lookup in platform_defaults, mirroring self.platform_defaults.get. -/
def defaultsGet (p : String) : Option (List (ℤ × ℤ)) :=
  match platform_defaults.find? (fun e => e.1 = p) with
  | some e => some e.2
  | none => none

/-- Source method _initialize_default_slots: seed every platform with its default slots,
score 0.5, confidence 0.1, sample_count 0, last_updated now. -/
def initialize_default_slots (now : ℤ) : Store :=
  platform_defaults.map (fun e =>
    (e.1, e.2.map (fun hd =>
      ((hd.1, hd.2),
       { hour := hd.1, day_of_week := hd.2, platform := e.1,
         score := 1/2, confidence := 1/10, sample_count := 0,
         last_updated := some now }))))

/-! ## PerformanceRecorder -/

/-- The slot-update lines of record_post_performance, factored over the
computed engagement rate: adaptive-rate EMA on the score, saturating
confidence, incremented sample count, refreshed timestamp. -/
def recordRate (slot : TimeSlot) (engagement_rate : ℚ) (now : ℤ) : TimeSlot :=
  let alpha := min (3/10 : ℚ) (1 / ((slot.sample_count : ℚ) + 1))
  { slot with
    score := (1 - alpha) * slot.score + alpha * engagement_rate
    confidence := min (slot.confidence + 1/20) (19/20)
    sample_count := slot.sample_count + 1
    last_updated := some now }

/-- The fresh slot created by record_post_performance when the key is
absent. -/
def newSlotFor (platform : String) (hour day_of_week : ℤ) : TimeSlot :=
  { hour := hour, day_of_week := day_of_week, platform := platform,
    score := 1/2, confidence := 1/10, sample_count := 0, last_updated := none }

/-- The engagement rate computed by record_post_performance: total
interactions over max(views, 1). -/
def engagementRateOf (metrics : PostMetrics) : ℚ :=
  ((metrics.likes + metrics.comments + metrics.shares + metrics.saves : ℕ) : ℚ) /
    ((max metrics.views 1 : ℕ) : ℚ)

/-- The slot record_post_performance starts from: the stored slot under
(platform, hour, day_of_week), or a fresh neutral slot when absent. -/
def oldSlotOf (store : Store) (metrics : PostMetrics) : TimeSlot :=
  (slotGet ((dictGet store metrics.platform).getD []) (metrics.hour, metrics.day_of_week)).getD
    (newSlotFor metrics.platform metrics.hour metrics.day_of_week)

/-- record_post_performance: computes the engagement rate from the raw
counters, fetches or creates the slot keyed by (hour, day_of_week) under
the platform, applies the EMA update and stores the result back. -/
def record_post_performance (store : Store) (metrics : PostMetrics) (now : ℤ) : Store :=
  let slots := (dictGet store metrics.platform).getD []
  storeSet store metrics.platform
    (slotSet slots (metrics.hour, metrics.day_of_week)
      (recordRate (oldSlotOf store metrics) (engagementRateOf metrics) now))

/-- Iterated performance recording on one slot with a constant engagement
rate, the situation of the EMA convergence property. -/
def iterateRecord (slot : TimeSlot) (r : ℚ) (now : ℤ) : ℕ → TimeSlot
  | 0 => slot
  | n + 1 => recordRate (iterateRecord slot r now n) r now

/-! ## ScoringEngine -/

/-- Source method _get_day_adjustment: early-return chain on the target datetime. -/
def get_day_adjustment (target_time : ℤ) : ℚ :=
  if weekdayOf target_time = 0 then -1/10
  else if weekdayOf target_time = 4 then 1/20
  else if dayOfMonth target_time = 1 then -1/20
  else 0

/-- Source method _get_event_adjustment: weekend boost. -/
def get_event_adjustment (target_time : ℤ) : ℚ :=
  if 5 ≤ weekdayOf target_time then 1/50 else 0

/-- Source method _calculate_dynamic_score.  The call math.exp(-days_old / 30) is
modelled as expFn applied to the rational -days_old / 30; the final line
clamps into [0, 1] via min and max exactly as the source does. -/
def calculate_dynamic_score (expFn : ℚ → ℚ) (slot : TimeSlot) (target_time : ℤ) : ℚ :=
  let base_score := slot.score
  let decay_factor : ℚ :=
    match slot.last_updated with
    | some last_update => expFn (-((timedeltaDays target_time last_update : ℤ) : ℚ) / 30)
    | none => 1/10
  let confidence_boost := slot.confidence * (1/5)
  let sample_factor := min ((slot.sample_count : ℚ) / 10) 1 * (1/10)
  let day_adjustment := get_day_adjustment target_time
  let event_adjustment := get_event_adjustment target_time
  min (max (base_score * decay_factor + confidence_boost + sample_factor +
            day_adjustment + event_adjustment) 0) 1

/-! ## CandidateGenerator -/

/-- Source method _violates_min_gap: the source is a stub that always reports no
violation. -/
def violates_min_gap (_candidate_time : ℤ) (_min_gap_hours : ℤ) : Bool := false

/-- The body of the inner loop of _get_candidate_slots for one stored
entry on one target date. -/
def candidateOfEntry (expFn : ℚ → ℚ) (start_time : ℤ) (exclude_hours : List ℤ)
    (min_gap_hours : ℤ) (target_date : ℤ) (day_of_week : ℤ)
    (e : (ℤ × ℤ) × TimeSlot) : Option Candidate :=
  if e.1.2 ≠ day_of_week then none
  else if e.1.1 ∈ exclude_hours then none
  else
    let candidate_time := replaceHour target_date e.1.1
    if candidate_time ≤ start_time then none
    else if violates_min_gap candidate_time min_gap_hours then none
    else some
      { datetime := candidate_time
        hour := e.1.1
        day_of_week := e.1.2
        score := calculate_dynamic_score expFn e.2 candidate_time
        confidence := e.2.confidence
        base_slot := e.2 }

/-- Source method _get_candidate_slots: scan day offsets 0..6 and every stored slot of
the platform, keeping entries that match the weekday, avoid the excluded
hours, lie strictly in the future and pass the (stub) gap check. -/
def get_candidate_slots (expFn : ℚ → ℚ) (store : Store) (platform : String)
    (start_time : ℤ) (exclude_hours : List ℤ) (min_gap_hours : ℤ) : List Candidate :=
  let platform_slots := (dictGet store platform).getD []
  (List.range 7).flatMap (fun day_offset =>
    let target_date := addDays start_time (day_offset : ℤ)
    let day_of_week := weekdayOf target_date
    platform_slots.filterMap
      (candidateOfEntry expFn start_time exclude_hours min_gap_hours target_date day_of_week))

/-! ## RecommendationSelector -/

/-- Insert a candidate into a descending-by-score list, before the first
element whose score does not exceed it.  Used to model the stable
descending sort candidate_slots.sort(key score, reverse) of the source:
any stable sort produces the same output list. -/
def insertDesc (c : Candidate) : List Candidate → List Candidate
  | [] => [c]
  | x :: xs => if x.score ≤ c.score then c :: x :: xs else x :: insertDesc c xs

/-- Stable descending-by-score insertion sort over candidates. -/
def sortDesc : List Candidate → List Candidate
  | [] => []
  | x :: xs => insertDesc x (sortDesc xs)

/-- Two-digit zero padding of f-string formatting 02d. -/
def pad2 (h : ℤ) : String :=
  if 0 ≤ h ∧ h < 10 then "0" ++ toString h else toString h

/-- The weekday-name table of the source. -/
def day_names : List String :=
  ["Monday", "Tuesday", "Wednesday", "Thursday", "Friday", "Saturday", "Sunday"]

/-- Source method _convert_to_local_time: fixed +4 offset and weekday name. -/
def convert_to_local_time (utc_time : ℤ) : String :=
  let local_hour := (hourOf utc_time + 4) % 24
  let day_name := day_names.getD (weekdayOf utc_time).toNat ""
  day_name ++ " " ++ pad2 local_hour ++ ":00 (Local Time)"

/-- Source method _generate_recommendation_reason: three qualitative bands joined by
bullet separators. -/
def generate_recommendation_reason (slot : Candidate) (platform : String) : String :=
  let r1 : String :=
    if slot.score > 7/10 then "High historical engagement"
    else if slot.score > 1/2 then "Good historical performance"
    else "Average performance expected"
  let r2 : String :=
    if slot.confidence > 7/10 then "high confidence"
    else if slot.confidence > 2/5 then "medium confidence"
    else "low confidence"
  let day_name := day_names.getD slot.day_of_week.toNat ""
  r1 ++ " • " ++ r2 ++ " • " ++ "optimal for " ++ platform ++ " on " ++ day_name ++ "s"

/-- The anchoring computation of _get_fallback_recommendation: the number
of days ahead to the wanted weekday, pushed a full week when the slot hour
has already passed today, then the datetime at that day and hour. -/
def fallbackTarget (current_time : ℤ) (h d : ℤ) : ℤ :=
  let days_ahead0 := (d - weekdayOf current_time) % 7
  let days_ahead := if days_ahead0 = 0 ∧ h ≤ hourOf current_time then 7 else days_ahead0
  replaceHour (addDays current_time days_ahead) h

/-- Source method _get_fallback_recommendation: anchor the first default slot of the
platform (Tuesday noon for unknown platforms) to its next occurrence
strictly after current_time, with fixed score 0.5 and confidence 0.1. -/
def get_fallback_recommendation (platform : String) (current_time : ℤ) : ScheduleRecommendation :=
  let default_times := (defaultsGet platform).getD [(12, 1)]
  let hd := default_times.headD (12, 1)
  let target_time := fallbackTarget current_time hd.1 hd.2
  { platform := platform
    datetime_utc := target_time
    local_time := convert_to_local_time target_time
    score := 1/2
    confidence := 1/10
    reason := "Using default " ++ platform ++ " posting time (no historical data available)"
    alternative_slots := none }

/-- get_optimal_time: generate candidates, fall back when none exist,
otherwise sort descending by score and return the best with up to three
alternatives.  Sorting a nonempty list is nonempty, so the empty branch of
the match is exactly the fallback branch of the source. -/
def get_optimal_time (expFn : ℚ → ℚ) (store : Store) (platform : String)
    (now : ℤ) (exclude_hours : List ℤ) (min_gap_hours : ℤ) : ScheduleRecommendation :=
  let candidate_slots := get_candidate_slots expFn store platform now exclude_hours min_gap_hours
  match sortDesc candidate_slots with
  | [] => get_fallback_recommendation platform now
  | best_slot :: rest =>
    { platform := platform
      datetime_utc := best_slot.datetime
      local_time := convert_to_local_time best_slot.datetime
      score := best_slot.score
      confidence := best_slot.confidence
      reason := generate_recommendation_reason best_slot platform
      alternative_slots := some (rest.take 3) }

/-! ## MultiPlatformCoordinator -/

/-- The priority table of get_multi_platform_schedule. -/
def platform_priority : List (String × ℤ) :=
  [("linkedin", 0), ("twitter", 1), ("instagram", 2), ("youtube", 3), ("tiktok", 4)]

/-- platform_priority.get(p, 999). -/
def priorityOf (p : String) : ℤ :=
  match platform_priority.find? (fun e => e.1 = p) with
  | some e => e.2
  | none => 999

/-- Stable ascending insertion by priority, modelling the stable
sorted(platforms, key priority) of the source. -/
def insertByPriority (p : String) : List String → List String
  | [] => [p]
  | q :: qs => if priorityOf p < priorityOf q then p :: q :: qs else q :: insertByPriority p qs

/-- Stable sort of the platform list by priority. -/
def sortByPriority : List String → List String
  | [] => []
  | p :: ps => insertByPriority p (sortByPriority ps)

/-- Python range(a, b) over integers. -/
def intRange (a b : ℤ) : List ℤ :=
  (List.range (b - a).toNat).map (fun (i : ℕ) => a + (i : ℤ))

/-- The exclude-hours list built from already used datetimes: every hour
within the gap of a used hour, taken modulo 24. -/
def excludeHoursOf (used_times : List ℤ) (min_gap_hours : ℤ) : List ℤ :=
  used_times.flatMap (fun used_time =>
    (intRange (-min_gap_hours) (min_gap_hours + 1)).map
      (fun hour_offset => (hourOf used_time + hour_offset) % 24))

/-- One iteration of the loop of get_multi_platform_schedule.  The inner
call passes only exclude_hours, so min_gap_hours keeps its default 2 in
the inner call, as in the source. -/
def multiStep (expFn : ℚ → ℚ) (store : Store) (now : ℤ) (min_gap_hours : ℤ)
    (acc : List ScheduleRecommendation × List ℤ) (platform : String) :
    List ScheduleRecommendation × List ℤ :=
  let exclude_hours := excludeHoursOf acc.2 min_gap_hours
  let recommendation := get_optimal_time expFn store platform now exclude_hours 2
  (acc.1 ++ [recommendation], acc.2 ++ [recommendation.datetime_utc])

/-- get_multi_platform_schedule: process platforms in priority order,
excluding hours near already chosen datetimes. -/
def get_multi_platform_schedule (expFn : ℚ → ℚ) (store : Store)
    (platforms : List String) (min_gap_hours : ℤ) (now : ℤ) : List ScheduleRecommendation :=
  ((sortByPriority platforms).foldl (multiStep expFn store now min_gap_hours) ([], [])).1


/-! ## SlotStore persistence: _save_data and _load_data

The json layer maps the nested dict structure to text and back and is the
identity on the structured value; what the claims exercise is the key
encoding str((hour, dow)) written by _save_data and the tuple
reconstruction performed by _load_data (eval of the key string), modelled
here over explicit character lists. -/

/-- The character of a decimal digit. -/
def digitCharOf (n : ℕ) : Char := Char.ofNat (48 + n)

/-- Decimal rendering of a natural number, most significant digit first,
with explicit fuel so that the recursion is structural. -/
def natToCharsAux : ℕ → ℕ → List Char
  | 0, _ => []
  | fuel + 1, n =>
    if n < 10 then [digitCharOf n]
    else natToCharsAux fuel (n / 10) ++ [digitCharOf (n % 10)]

/-- Decimal rendering of a natural number. -/
def natToChars (n : ℕ) : List Char := natToCharsAux (n + 1) n

/-- Python repr of an integer. -/
def intToChars (i : ℤ) : List Char :=
  if i < 0 then '-' :: natToChars (-i).toNat else natToChars i.toNat

/-- Python str((h, d)) for a pair of integers: open parenthesis, first
integer, comma and space, second integer, close parenthesis. -/
def pyStrPairChars (h d : ℤ) : List Char :=
  '(' :: (intToChars h ++ [',', ' '] ++ intToChars d ++ [')'])

/-- Value of a decimal digit character. -/
def digitVal (c : Char) : Option ℕ :=
  if '0' ≤ c ∧ c ≤ '9' then some (c.toNat - 48) else none

/-- Accumulating decimal reader; fails on any non-digit. -/
def parseDigitsAux : List Char → ℕ → Option ℕ
  | [], acc => some acc
  | c :: cs, acc =>
    match digitVal c with
    | some v => parseDigitsAux cs (acc * 10 + v)
    | none => none

/-- Read a nonempty all-digit character list as a natural number. -/
def parseDigits (cs : List Char) : Option ℕ :=
  match cs with
  | [] => none
  | _ => parseDigitsAux cs 0

/-- Read an optionally negated decimal integer. -/
def parseIntChars (cs : List Char) : Option ℤ :=
  match cs with
  | '-' :: rest => (parseDigits rest).map (fun n => -(n : ℤ))
  | _ => (parseDigits cs).map (fun n => (n : ℤ))

/-- Split a character list at the first comma-space separator. -/
def splitAtComma : List Char → Option (List Char × List Char)
  | [] => none
  | ',' :: ' ' :: rest => some ([], rest)
  | c :: rest => (splitAtComma rest).map (fun pr => (c :: pr.1, pr.2))

/-- The effect of eval on a key string of the tuple shape written by
_save_data: strip the parentheses, split at the separator, read the two
integers. -/
def parsePairKey (cs : List Char) : Option (ℤ × ℤ) :=
  match cs with
  | '(' :: rest =>
    if rest.getLast? = some ')' then
      match splitAtComma rest.dropLast with
      | some pr =>
        match parseIntChars pr.1, parseIntChars pr.2 with
        | some x, some y => some (x, y)
        | _, _ => none
      | none => none
    else none
  | _ => none

/-- The structured value _save_data passes to json.dump: per platform, an
object keyed by the string form of the slot key, holding the slot record
(asdict of the dataclass). -/
abbrev SavedData := List (String × List (List Char × TimeSlot))

/-- Source method _save_data, at the structured level. -/
def save_data (store : Store) : SavedData :=
  store.map (fun pm => (pm.1, pm.2.map (fun e => (pyStrPairChars e.1.1 e.1.2, e.2))))

/-- Source method _load_data, at the structured level: reconstruct every key by
evaluating its string form and rebuild the slot from its record
(TimeSlot of the saved fields).  Any key that fails to evaluate makes the
whole load fail, as the source wraps the loop in a single try block. -/
def load_data (d : SavedData) : Option Store :=
  d.mapM (fun ps =>
    (ps.2.mapM (fun e => (parsePairKey e.1).map (fun k => (k, e.2)))).map
      (fun l => (ps.1, l)))

/-! ## Spec-side restatement of the scoring formula

These definitions follow the wording of the specification (section 4.2)
and of claim C3, for comparison against calculate_dynamic_score, which is
translated from the source. -/

/-- The day adjustment as the spec states it: minus 0.1 on Monday, else
plus 0.05 on Friday, else minus 0.05 on the first day of the month, else
zero. -/
def dayAdjSpec (t : ℤ) : ℚ :=
  if weekdayOf t = 0 then -1/10
  else if weekdayOf t = 4 then 1/20
  else if dayOfMonth t = 1 then -1/20
  else 0

/-- The event adjustment as the spec states it: plus 0.02 on Saturday or
Sunday, else zero. -/
def eventAdjSpec (t : ℤ) : ℚ :=
  if weekdayOf t = 5 ∨ weekdayOf t = 6 then 1/50 else 0

/-- The full scoring formula as claim C3 states it, for a slot whose
last_updated is set to lu. -/
def scoreSpecFormula (expFn : ℚ → ℚ) (slot : TimeSlot) (t : ℤ) (lu : ℤ) : ℚ :=
  min (max (slot.score * expFn (-((timedeltaDays t lu : ℤ) : ℚ) / 30) +
            slot.confidence * (2/10) +
            min ((slot.sample_count : ℚ) / 10) 1 * (1/10) +
            dayAdjSpec t + eventAdjSpec t) 0) 1

/-! ## Concrete fixtures used by witnesses and counterexamples -/

/-- A concrete interpretation of math.exp, used only to instantiate the
abstract expFn parameter at witnesses. -/
def expOne : ℚ → ℚ := fun _ => 1

/-- A learned twitter slot with no timestamp, for multi-platform
witnesses; its dynamic score does not depend on the exp interpretation. -/
def slotTW : TimeSlot :=
  { hour := 15, day_of_week := 3, platform := "twitter", score := 1/2,
    confidence := 1/10, sample_count := 0, last_updated := none }

/-- A store holding only slotTW. -/
def storeTW : Store := [("twitter", [((15, 3), slotTW)])]

/-- A learned instagram slot with no timestamp, for candidate-generation
witnesses. -/
def slotIG : TimeSlot :=
  { hour := 19, day_of_week := 3, platform := "instagram", score := 1/2,
    confidence := 1/10, sample_count := 0, last_updated := none }

/-- A store holding only slotIG. -/
def storeIG : Store := [("instagram", [((19, 3), slotIG)])]

/-- The candidate generated from storeIG at instant 0. -/
def candIG : Candidate :=
  { datetime := 68400, hour := 19, day_of_week := 3, score := 1/50,
    confidence := 1/10, base_slot := slotIG }

/-- Metrics of a post with zero views and ten likes: the engagement rate
is 10. -/
def metricsViews0 : PostMetrics :=
  { post_id := "p1", platform := "instagram", publish_time := 0, hour := 19,
    day_of_week := 0, engagement_rate := 0, views := 0, likes := 10,
    comments := 0, shares := 0, saves := 0, clicks := 0, reach := 0,
    impressions := 0 }

/-- Metrics of an instagram post at hour 19 on Wednesday with 100 views
and the given number of likes: the engagement rate is likes over 100. -/
def metricsIG (likes : ℕ) : PostMetrics :=
  { post_id := "p", platform := "instagram", publish_time := 0, hour := 19,
    day_of_week := 2, engagement_rate := 0, views := 100, likes := likes,
    comments := 0, shares := 0, saves := 0, clicks := 0, reach := 0,
    impressions := 0 }

/-- The candidate generated from storeTW at instant 0 with no exclusions
in force. -/
def candTW : Candidate :=
  { datetime := 54000, hour := 15, day_of_week := 3, score := 1/50,
    confidence := 1/10, base_slot := slotTW }

/-- A slot with a set timestamp, for scoring witnesses. -/
def slotTS : TimeSlot :=
  { hour := 9, day_of_week := 1, platform := "twitter", score := 7/10,
    confidence := 3/10, sample_count := 4, last_updated := some 0 }

/-! # Lemmas and theorems -/

/-! ## Dictionary operations -/

theorem slotGet_slotSet_self (m : SlotMap) (k : ℤ × ℤ) (v : TimeSlot) :
    slotGet (slotSet m k v) k = some v := by
  induction m with
  | nil => simp [slotSet, slotGet]
  | cons e rest ih =>
    obtain ⟨k2, w⟩ := e
    by_cases hk : k2 = k <;> simp [slotSet, slotGet, hk, ih]

theorem slotGet_slotSet_ne (m : SlotMap) (k : ℤ × ℤ) (v : TimeSlot) (k' : ℤ × ℤ)
    (h : k' ≠ k) : slotGet (slotSet m k v) k' = slotGet m k' := by
  induction m with
  | nil =>
    simp only [slotSet, slotGet]
    rw [if_neg (fun he : k = k' => h (he.symm))]
  | cons e rest ih =>
    obtain ⟨k2, w⟩ := e
    simp only [slotSet]
    by_cases hk : k2 = k
    · rw [if_pos hk]
      have hne : ¬k2 = k' := fun he => h (he.symm.trans hk)
      simp only [slotGet]
      rw [if_neg hne, if_neg hne]
    · rw [if_neg hk]
      simp only [slotGet]
      by_cases hk2 : k2 = k'
      · rw [if_pos hk2, if_pos hk2]
      · rw [if_neg hk2, if_neg hk2, ih]

theorem dictGet_storeSet_self (s : Store) (p : String) (m : SlotMap) :
    dictGet (storeSet s p m) p = some m := by
  induction s with
  | nil => simp [storeSet, dictGet]
  | cons e rest ih =>
    obtain ⟨q, w⟩ := e
    by_cases hq : q = p <;> simp [storeSet, dictGet, hq, ih]

theorem dictGet_storeSet_ne (s : Store) (p : String) (m : SlotMap) (q : String)
    (h : q ≠ p) : dictGet (storeSet s p m) q = dictGet s q := by
  induction s with
  | nil =>
    simp only [storeSet, dictGet]
    rw [if_neg (fun he : p = q => h (he.symm))]
  | cons e rest ih =>
    obtain ⟨q2, w⟩ := e
    simp only [storeSet]
    by_cases hq : q2 = p
    · rw [if_pos hq]
      have hne : ¬q2 = q := fun he => h (he.symm.trans hq)
      simp only [dictGet]
      rw [if_neg hne, if_neg hne]
    · rw [if_neg hq]
      simp only [dictGet]
      by_cases hq2 : q2 = q
      · rw [if_pos hq2, if_pos hq2]
      · rw [if_neg hq2, if_neg hq2, ih]

theorem mem_of_slotGet {m : SlotMap} {k : ℤ × ℤ} {v : TimeSlot}
    (h : slotGet m k = some v) : (k, v) ∈ m := by
  induction m with
  | nil => simp [slotGet] at h
  | cons e rest ih =>
    obtain ⟨k2, w⟩ := e
    by_cases hk : k2 = k
    · subst hk
      simp [slotGet] at h
      simp [h]
    · simp [slotGet, hk] at h
      simp [ih h]

theorem mem_of_dictGet {s : Store} {p : String} {m : SlotMap}
    (h : dictGet s p = some m) : (p, m) ∈ s := by
  induction s with
  | nil => simp [dictGet] at h
  | cons e rest ih =>
    obtain ⟨q, w⟩ := e
    by_cases hq : q = p
    · subst hq
      simp [dictGet] at h
      simp [h]
    · simp [dictGet, hq] at h
      simp [ih h]

theorem mem_slotSet {m : SlotMap} {k : ℤ × ℤ} {v : TimeSlot} {e : (ℤ × ℤ) × TimeSlot}
    (h : e ∈ slotSet m k v) : e = (k, v) ∨ e ∈ m := by
  induction m with
  | nil => simpa [slotSet] using h
  | cons e2 rest ih =>
    obtain ⟨k2, w⟩ := e2
    by_cases hk : k2 = k
    · subst hk
      simp [slotSet] at h
      rcases h with h | h
      · exact Or.inl (by simp [h])
      · exact Or.inr (by simp [h])
    · simp [slotSet, hk] at h
      rcases h with h | h
      · exact Or.inr (by simp [h])
      · rcases ih h with h2 | h2
        · exact Or.inl h2
        · exact Or.inr (by simp [h2])

theorem mem_storeSet {s : Store} {p : String} {m : SlotMap} {e : String × SlotMap}
    (h : e ∈ storeSet s p m) : e = (p, m) ∨ e ∈ s := by
  induction s with
  | nil => simpa [storeSet] using h
  | cons e2 rest ih =>
    obtain ⟨q, w⟩ := e2
    by_cases hq : q = p
    · subst hq
      simp [storeSet] at h
      rcases h with h | h
      · exact Or.inl (by simp [h])
      · exact Or.inr (by simp [h])
    · simp [storeSet, hq] at h
      rcases h with h | h
      · exact Or.inr (by simp [h])
      · rcases ih h with h2 | h2
        · exact Or.inl h2
        · exact Or.inr (by simp [h2])

/-! ## Effect of record_post_performance on lookups -/

theorem record_lookup_self (store : Store) (me : PostMetrics) (t : ℤ) :
    slotGet ((dictGet (record_post_performance store me t) me.platform).getD [])
        (me.hour, me.day_of_week) =
      some (recordRate (oldSlotOf store me) (engagementRateOf me) t) := by
  unfold record_post_performance
  rw [dictGet_storeSet_self]
  simp [slotGet_slotSet_self]

theorem record_lookup_frame (store : Store) (me : PostMetrics) (t : ℤ)
    (p : String) (k : ℤ × ℤ)
    (h : ¬(p = me.platform ∧ k = (me.hour, me.day_of_week))) :
    slotGet ((dictGet (record_post_performance store me t) p).getD []) k =
      slotGet ((dictGet store p).getD []) k := by
  unfold record_post_performance
  by_cases hp : p = me.platform
  · subst hp
    rw [dictGet_storeSet_self]
    have hk : k ≠ (me.hour, me.day_of_week) := fun hke => h ⟨rfl, hke⟩
    simp [slotGet_slotSet_ne _ _ _ _ hk]
  · rw [dictGet_storeSet_ne _ _ _ _ hp]

/-- C2: for every PostMetrics input, record_post_performance updates
exactly the slot keyed by (platform, hour, day_of_week) — starting from
the stored slot, or from a fresh slot with score 0.5, confidence 0.1,
sample_count 0 when absent — with the EMA score update at learning rate
alpha = min(0.3, 1/(sample_count+1)), the saturating confidence update,
an incremented sample count and a refreshed timestamp, where the
engagement rate is total interactions over max(views, 1); every other
key of the store is left unchanged. -/
theorem C2_record_update (store : Store) (metrics : PostMetrics) (now : ℤ) :
    slotGet ((dictGet (record_post_performance store metrics now) metrics.platform).getD [])
        (metrics.hour, metrics.day_of_week) =
      some { hour := (oldSlotOf store metrics).hour
             day_of_week := (oldSlotOf store metrics).day_of_week
             platform := (oldSlotOf store metrics).platform
             score := (1 - min (3/10 : ℚ) (1 / (((oldSlotOf store metrics).sample_count : ℚ) + 1))) *
                        (oldSlotOf store metrics).score +
                      min (3/10 : ℚ) (1 / (((oldSlotOf store metrics).sample_count : ℚ) + 1)) *
                        engagementRateOf metrics
             confidence := min ((oldSlotOf store metrics).confidence + 1/20) (19/20)
             sample_count := (oldSlotOf store metrics).sample_count + 1
             last_updated := some now } ∧
    (slotGet ((dictGet store metrics.platform).getD []) (metrics.hour, metrics.day_of_week) = none →
      oldSlotOf store metrics = newSlotFor metrics.platform metrics.hour metrics.day_of_week) ∧
    engagementRateOf metrics =
      ((metrics.likes + metrics.comments + metrics.shares + metrics.saves : ℕ) : ℚ) /
        ((max metrics.views 1 : ℕ) : ℚ) ∧
    ∀ p k, ¬(p = metrics.platform ∧ k = (metrics.hour, metrics.day_of_week)) →
      slotGet ((dictGet (record_post_performance store metrics now) p).getD []) k =
        slotGet ((dictGet store p).getD []) k := by
  refine ⟨?_, ?_, rfl, record_lookup_frame store metrics now⟩
  · rw [record_lookup_self]
    rfl
  · intro h
    unfold oldSlotOf
    rw [h]
    rfl

/-- Witness for C2 at a concrete input: with an empty store the update
starts from the fresh neutral slot. -/
theorem C2_record_update_witness :
    oldSlotOf [] (metricsIG 5) =
      newSlotFor (metricsIG 5).platform (metricsIG 5).hour (metricsIG 5).day_of_week :=
  (C2_record_update [] (metricsIG 5) 0).2.1 rfl

/-! ## Bounds arithmetic for the performance recorder -/

theorem engagementRate_nonneg (metrics : PostMetrics) : 0 ≤ engagementRateOf metrics := by
  unfold engagementRateOf
  positivity

theorem engagementRate_le_one (metrics : PostMetrics)
    (h : metrics.likes + metrics.comments + metrics.shares + metrics.saves ≤ max metrics.views 1) :
    engagementRateOf metrics ≤ 1 := by
  unfold engagementRateOf
  rw [div_le_one (by positivity)]
  exact_mod_cast h

theorem alpha_pos (k : ℕ) : 0 < min (3/10 : ℚ) (1 / ((k : ℚ) + 1)) := by
  apply lt_min (by norm_num)
  positivity

theorem alpha_le (k : ℕ) : min (3/10 : ℚ) (1 / ((k : ℚ) + 1)) ≤ 3/10 := min_le_left _ _

theorem recordRate_score_nonneg (s : TimeSlot) (r : ℚ) (t : ℤ)
    (hs : 0 ≤ s.score) (hr : 0 ≤ r) : 0 ≤ (recordRate s r t).score := by
  have h1 := alpha_pos s.sample_count
  have h2 := alpha_le s.sample_count
  simp only [recordRate]
  have : (0 : ℚ) ≤ 1 - min (3/10 : ℚ) (1 / ((s.sample_count : ℚ) + 1)) := by linarith
  positivity

theorem recordRate_score_le_one (s : TimeSlot) (r : ℚ) (t : ℤ)
    (hs : s.score ≤ 1) (_hs0 : 0 ≤ s.score) (hr : r ≤ 1) : (recordRate s r t).score ≤ 1 := by
  have h1 := alpha_pos s.sample_count
  have h2 := alpha_le s.sample_count
  simp only [recordRate]
  nlinarith

theorem recordRate_confidence_bounds (s : TimeSlot) (r : ℚ) (t : ℤ)
    (hc : 0 ≤ s.confidence) :
    0 ≤ (recordRate s r t).confidence ∧ (recordRate s r t).confidence ≤ 1 := by
  simp only [recordRate]
  constructor
  · apply le_min (by linarith) (by norm_num)
  · exact le_trans (min_le_right _ _) (by norm_num)

theorem newSlotFor_bounds (p : String) (h d : ℤ) :
    0 ≤ (newSlotFor p h d).score ∧ (newSlotFor p h d).score ≤ 1 ∧
    0 ≤ (newSlotFor p h d).confidence ∧ (newSlotFor p h d).confidence ≤ 1 := by
  simp only [newSlotFor]
  norm_num

/-! ## Invariant preservation through recording -/

theorem init_bounds (t0 : ℤ) :
    ∀ pm ∈ initialize_default_slots t0, ∀ e ∈ pm.2,
      0 ≤ e.2.score ∧ e.2.score ≤ 1 ∧ 0 ≤ e.2.confidence ∧ e.2.confidence ≤ 1 := by
  intro pm hpm e he
  simp only [initialize_default_slots, List.mem_map] at hpm
  obtain ⟨pe, _, hpe⟩ := hpm
  subst hpe
  simp only [List.mem_map] at he
  obtain ⟨hd, _, hhd⟩ := he
  subst hhd
  norm_num

theorem record_preserves_bounds (store : Store) (me : PostMetrics) (t : ℤ)
    (h : ∀ pm ∈ store, ∀ e ∈ pm.2, 0 ≤ e.2.score ∧ 0 ≤ e.2.confidence ∧ e.2.confidence ≤ 1) :
    ∀ pm ∈ record_post_performance store me t, ∀ e ∈ pm.2,
      0 ≤ e.2.score ∧ 0 ≤ e.2.confidence ∧ e.2.confidence ≤ 1 := by
  intro pm hpm e he
  have hold : 0 ≤ (oldSlotOf store me).score ∧ 0 ≤ (oldSlotOf store me).confidence := by
    unfold oldSlotOf
    cases hsg : slotGet ((dictGet store me.platform).getD []) (me.hour, me.day_of_week) with
    | none => simp [newSlotFor]
    | some v =>
      cases hdg : dictGet store me.platform with
      | none => simp [hdg, slotGet] at hsg
      | some m =>
        rw [hdg] at hsg
        have := h _ (mem_of_dictGet hdg) _ (mem_of_slotGet (by simpa using hsg))
        simp only [Option.getD_some]
        exact ⟨this.1, this.2.1⟩
  rcases mem_storeSet hpm with hpm2 | hpm2
  · subst hpm2
    rcases mem_slotSet he with he2 | he2
    · subst he2
      refine ⟨recordRate_score_nonneg _ _ _ hold.1 (engagementRate_nonneg me), ?_⟩
      exact recordRate_confidence_bounds _ _ _ hold.2
    · cases hdg : dictGet store me.platform with
      | none => simp [hdg] at he2
      | some m =>
        rw [hdg] at he2
        have := h _ (mem_of_dictGet hdg) _ (by simpa using he2)
        exact this
  · exact h _ hpm2 _ he

theorem record_preserves_bounds1 (store : Store) (me : PostMetrics) (t : ℤ)
    (hrate : me.likes + me.comments + me.shares + me.saves ≤ max me.views 1)
    (h : ∀ pm ∈ store, ∀ e ∈ pm.2,
      0 ≤ e.2.score ∧ e.2.score ≤ 1 ∧ 0 ≤ e.2.confidence ∧ e.2.confidence ≤ 1) :
    ∀ pm ∈ record_post_performance store me t, ∀ e ∈ pm.2,
      0 ≤ e.2.score ∧ e.2.score ≤ 1 ∧ 0 ≤ e.2.confidence ∧ e.2.confidence ≤ 1 := by
  intro pm hpm e he
  have hold : 0 ≤ (oldSlotOf store me).score ∧ (oldSlotOf store me).score ≤ 1 ∧
      0 ≤ (oldSlotOf store me).confidence := by
    unfold oldSlotOf
    cases hsg : slotGet ((dictGet store me.platform).getD []) (me.hour, me.day_of_week) with
    | none => norm_num [newSlotFor]
    | some v =>
      cases hdg : dictGet store me.platform with
      | none => simp [hdg, slotGet] at hsg
      | some m =>
        rw [hdg] at hsg
        have := h _ (mem_of_dictGet hdg) _ (mem_of_slotGet (by simpa using hsg))
        simp only [Option.getD_some]
        exact ⟨this.1, this.2.1, this.2.2.1⟩
  rcases mem_storeSet hpm with hpm2 | hpm2
  · subst hpm2
    rcases mem_slotSet he with he2 | he2
    · subst he2
      refine ⟨recordRate_score_nonneg _ _ _ hold.1 (engagementRate_nonneg me), ?_, ?_⟩
      · exact recordRate_score_le_one _ _ _ hold.2.1 hold.1 (engagementRate_le_one me hrate)
      · exact recordRate_confidence_bounds _ _ _ hold.2.2
    · cases hdg : dictGet store me.platform with
      | none => simp [hdg] at he2
      | some m =>
        rw [hdg] at he2
        exact h _ (mem_of_dictGet hdg) _ (by simpa using he2)
  · exact h _ hpm2 _ he

theorem lookup_bound_of_mem_bound {P : TimeSlot → Prop} {store : Store}
    (h : ∀ pm ∈ store, ∀ e ∈ pm.2, P e.2) :
    ∀ p k slot, slotGet ((dictGet store p).getD []) k = some slot → P slot := by
  intro p k slot hsg
  cases hdg : dictGet store p with
  | none => simp [hdg, slotGet] at hsg
  | some m =>
    rw [hdg] at hsg
    exact h _ (mem_of_dictGet hdg) _ (mem_of_slotGet (by simpa using hsg))

theorem foldl_records_bounds (ms : List (PostMetrics × ℤ)) (s : Store)
    (h : ∀ pm ∈ s, ∀ e ∈ pm.2, 0 ≤ e.2.score ∧ 0 ≤ e.2.confidence ∧ e.2.confidence ≤ 1) :
    ∀ pm ∈ ms.foldl (fun st me => record_post_performance st me.1 me.2) s, ∀ e ∈ pm.2,
      0 ≤ e.2.score ∧ 0 ≤ e.2.confidence ∧ e.2.confidence ≤ 1 := by
  induction ms generalizing s with
  | nil => simpa using h
  | cons me rest ih =>
    exact ih _ (record_preserves_bounds s me.1 me.2 h)

theorem foldl_records_bounds1 (ms : List (PostMetrics × ℤ)) (s : Store)
    (hrates : ∀ me ∈ ms, me.1.likes + me.1.comments + me.1.shares + me.1.saves ≤ max me.1.views 1)
    (h : ∀ pm ∈ s, ∀ e ∈ pm.2,
      0 ≤ e.2.score ∧ e.2.score ≤ 1 ∧ 0 ≤ e.2.confidence ∧ e.2.confidence ≤ 1) :
    ∀ pm ∈ ms.foldl (fun st me => record_post_performance st me.1 me.2) s, ∀ e ∈ pm.2,
      0 ≤ e.2.score ∧ e.2.score ≤ 1 ∧ 0 ≤ e.2.confidence ∧ e.2.confidence ≤ 1 := by
  induction ms generalizing s with
  | nil => simpa using h
  | cons me rest ih =>
    exact ih (record_post_performance s me.1 me.2)
      (fun m hm => hrates m (List.mem_cons_of_mem _ hm))
      (record_preserves_bounds1 s me.1 me.2 (hrates me (List.mem_cons_self _ _)) h)

/-- C1 as amended: on every store reachable from default initialization by
a sequence of record_post_performance calls, every stored slot has
0 ≤ score and 0 ≤ confidence ≤ 1 unconditionally; the upper bound
score ≤ 1 additionally holds when every recorded metrics has
likes + comments + shares + saves ≤ max(views, 1), that is an engagement
rate at most 1.  (The unrestricted upper bound of the original claim is
refuted by C1_counterexample.) -/
theorem C1_invariant (t0 : ℤ) (ms : List (PostMetrics × ℤ)) :
    (∀ p k slot,
      slotGet ((dictGet (ms.foldl (fun st me => record_post_performance st me.1 me.2)
          (initialize_default_slots t0)) p).getD []) k = some slot →
        0 ≤ slot.score ∧ 0 ≤ slot.confidence ∧ slot.confidence ≤ 1) ∧
    ((∀ me ∈ ms, me.1.likes + me.1.comments + me.1.shares + me.1.saves ≤ max me.1.views 1) →
      ∀ p k slot,
        slotGet ((dictGet (ms.foldl (fun st me => record_post_performance st me.1 me.2)
            (initialize_default_slots t0)) p).getD []) k = some slot →
          0 ≤ slot.score ∧ slot.score ≤ 1) := by
  constructor
  · apply lookup_bound_of_mem_bound
    apply foldl_records_bounds
    intro pm hpm e he
    have := init_bounds t0 pm hpm e he
    exact ⟨this.1, this.2.2.1, this.2.2.2⟩
  · intro hrates
    apply lookup_bound_of_mem_bound
      (P := fun slot => 0 ≤ slot.score ∧ slot.score ≤ 1)
    intro pm hpm e he
    have := foldl_records_bounds1 ms (initialize_default_slots t0) hrates
      (init_bounds t0) pm hpm e he
    exact ⟨this.1, this.2.1⟩

/-- Witness for C1_invariant: recording one well-behaved post on the
default store leaves the instagram Wednesday slot with score 73/200,
inside the unit interval. -/
theorem C1_invariant_witness :
    0 ≤ ({ hour := 19, day_of_week := 2, platform := "instagram", score := 73/200,
           confidence := 3/20, sample_count := 1, last_updated := some 0 } : TimeSlot).score ∧
    ({ hour := 19, day_of_week := 2, platform := "instagram", score := 73/200,
       confidence := 3/20, sample_count := 1, last_updated := some 0 } : TimeSlot).score ≤ 1 := by
  apply (C1_invariant 0 [(metricsIG 5, 0)]).2
  · intro me hme
    simp only [List.mem_singleton] at hme
    subst hme
    decide
  · show slotGet ((dictGet ([(metricsIG 5, 0)].foldl
        (fun st me => record_post_performance st me.1 me.2)
        (initialize_default_slots 0)) "instagram").getD []) (19, 2) = _
    norm_num [record_post_performance, initialize_default_slots, platform_defaults,
      dictGet, slotGet, slotSet, storeSet, recordRate, newSlotFor, oldSlotOf,
      engagementRateOf, metricsIG]

/-- C1 counterexample: from the default-initialized store, one
record_post_performance call with zero views and ten likes (engagement
rate 10) drives the instagram Monday-19h slot score to 67/20, above 1, so
the unrestricted invariant 0 ≤ score ≤ 1 of the claim is false. -/
theorem C1_counterexample :
    (slotGet ((dictGet (record_post_performance (initialize_default_slots 0) metricsViews0 0)
        "instagram").getD []) (19, 0)).map (fun s => s.score) = some (67/20) ∧
    ¬((67 : ℚ)/20 ≤ 1) := by
  constructor
  · norm_num [record_post_performance, initialize_default_slots, platform_defaults,
      dictGet, slotGet, slotSet, storeSet, recordRate, newSlotFor, oldSlotOf,
      engagementRateOf, metricsViews0]
  · norm_num

/-! ## Scenario B: five records on one fresh slot -/

/-- C6 amended: recording the five posts with engagement rates 0.05, 0.06,
0.05, 0.07, 0.06 on a store with no slot for (instagram, 19, Wednesday)
leaves that slot with sample_count 5 and score exactly 0.14987, which is
within 0.09 of 0.06 — not within the 0.005 stated by the original claim
(refuted by C6_counterexample): the EMA starts from the neutral 0.5 and
its learning rate is capped at 0.3, so five samples cannot settle near
0.06. -/
theorem C6_scenario_b (store : Store) (t1 t2 t3 t4 t5 : ℤ)
    (h : slotGet ((dictGet store "instagram").getD []) (19, 2) = none) :
    ∃ s : TimeSlot,
      slotGet ((dictGet
        (record_post_performance
          (record_post_performance
            (record_post_performance
              (record_post_performance
                (record_post_performance store (metricsIG 5) t1)
                (metricsIG 6) t2)
              (metricsIG 5) t3)
            (metricsIG 7) t4)
          (metricsIG 6) t5) "instagram").getD []) (19, 2) = some s ∧
      s.sample_count = 5 ∧ s.score = 14987/100000 ∧ |s.score - 6/100| ≤ 9/100 := by
  have o1 : oldSlotOf store (metricsIG 5) = newSlotFor "instagram" 19 2 := by
    show (slotGet ((dictGet store "instagram").getD []) (19, 2)).getD
      (newSlotFor "instagram" 19 2) = newSlotFor "instagram" 19 2
    rw [h]
    rfl
  have e1 : slotGet ((dictGet (record_post_performance store (metricsIG 5) t1)
      "instagram").getD []) (19, 2) =
      some (recordRate (newSlotFor "instagram" 19 2) (engagementRateOf (metricsIG 5)) t1) := by
    have h2 := record_lookup_self store (metricsIG 5) t1
    rw [o1] at h2
    exact h2
  have o2 : oldSlotOf (record_post_performance store (metricsIG 5) t1) (metricsIG 6) =
      recordRate (newSlotFor "instagram" 19 2) (engagementRateOf (metricsIG 5)) t1 := by
    show (slotGet ((dictGet (record_post_performance store (metricsIG 5) t1)
      "instagram").getD []) (19, 2)).getD (newSlotFor "instagram" 19 2) = _
    rw [e1]
    rfl
  have e2 : slotGet ((dictGet (record_post_performance
      (record_post_performance store (metricsIG 5) t1) (metricsIG 6) t2)
      "instagram").getD []) (19, 2) =
      some (recordRate (recordRate (newSlotFor "instagram" 19 2)
        (engagementRateOf (metricsIG 5)) t1) (engagementRateOf (metricsIG 6)) t2) := by
    have h2 := record_lookup_self (record_post_performance store (metricsIG 5) t1) (metricsIG 6) t2
    rw [o2] at h2
    exact h2
  have o3 : oldSlotOf (record_post_performance
      (record_post_performance store (metricsIG 5) t1) (metricsIG 6) t2) (metricsIG 5) =
      recordRate (recordRate (newSlotFor "instagram" 19 2)
        (engagementRateOf (metricsIG 5)) t1) (engagementRateOf (metricsIG 6)) t2 := by
    show (slotGet ((dictGet (record_post_performance
      (record_post_performance store (metricsIG 5) t1) (metricsIG 6) t2)
      "instagram").getD []) (19, 2)).getD (newSlotFor "instagram" 19 2) = _
    rw [e2]
    rfl
  have e3 : slotGet ((dictGet (record_post_performance (record_post_performance
      (record_post_performance store (metricsIG 5) t1) (metricsIG 6) t2) (metricsIG 5) t3)
      "instagram").getD []) (19, 2) =
      some (recordRate (recordRate (recordRate (newSlotFor "instagram" 19 2)
        (engagementRateOf (metricsIG 5)) t1) (engagementRateOf (metricsIG 6)) t2)
        (engagementRateOf (metricsIG 5)) t3) := by
    have h2 := record_lookup_self (record_post_performance
      (record_post_performance store (metricsIG 5) t1) (metricsIG 6) t2) (metricsIG 5) t3
    rw [o3] at h2
    exact h2
  have o4 : oldSlotOf (record_post_performance (record_post_performance
      (record_post_performance store (metricsIG 5) t1) (metricsIG 6) t2) (metricsIG 5) t3)
      (metricsIG 7) =
      recordRate (recordRate (recordRate (newSlotFor "instagram" 19 2)
        (engagementRateOf (metricsIG 5)) t1) (engagementRateOf (metricsIG 6)) t2)
        (engagementRateOf (metricsIG 5)) t3 := by
    show (slotGet ((dictGet (record_post_performance (record_post_performance
      (record_post_performance store (metricsIG 5) t1) (metricsIG 6) t2) (metricsIG 5) t3)
      "instagram").getD []) (19, 2)).getD (newSlotFor "instagram" 19 2) = _
    rw [e3]
    rfl
  have e4 : slotGet ((dictGet (record_post_performance (record_post_performance
      (record_post_performance (record_post_performance store (metricsIG 5) t1)
      (metricsIG 6) t2) (metricsIG 5) t3) (metricsIG 7) t4) "instagram").getD []) (19, 2) =
      some (recordRate (recordRate (recordRate (recordRate (newSlotFor "instagram" 19 2)
        (engagementRateOf (metricsIG 5)) t1) (engagementRateOf (metricsIG 6)) t2)
        (engagementRateOf (metricsIG 5)) t3) (engagementRateOf (metricsIG 7)) t4) := by
    have h2 := record_lookup_self (record_post_performance (record_post_performance
      (record_post_performance store (metricsIG 5) t1) (metricsIG 6) t2) (metricsIG 5) t3)
      (metricsIG 7) t4
    rw [o4] at h2
    exact h2
  have o5 : oldSlotOf (record_post_performance (record_post_performance
      (record_post_performance (record_post_performance store (metricsIG 5) t1)
      (metricsIG 6) t2) (metricsIG 5) t3) (metricsIG 7) t4) (metricsIG 6) =
      recordRate (recordRate (recordRate (recordRate (newSlotFor "instagram" 19 2)
        (engagementRateOf (metricsIG 5)) t1) (engagementRateOf (metricsIG 6)) t2)
        (engagementRateOf (metricsIG 5)) t3) (engagementRateOf (metricsIG 7)) t4 := by
    show (slotGet ((dictGet (record_post_performance (record_post_performance
      (record_post_performance (record_post_performance store (metricsIG 5) t1)
      (metricsIG 6) t2) (metricsIG 5) t3) (metricsIG 7) t4) "instagram").getD [])
      (19, 2)).getD (newSlotFor "instagram" 19 2) = _
    rw [e4]
    rfl
  have e5 : slotGet ((dictGet (record_post_performance (record_post_performance
      (record_post_performance (record_post_performance (record_post_performance store
      (metricsIG 5) t1) (metricsIG 6) t2) (metricsIG 5) t3) (metricsIG 7) t4)
      (metricsIG 6) t5) "instagram").getD []) (19, 2) =
      some (recordRate (recordRate (recordRate (recordRate (recordRate
        (newSlotFor "instagram" 19 2)
        (engagementRateOf (metricsIG 5)) t1) (engagementRateOf (metricsIG 6)) t2)
        (engagementRateOf (metricsIG 5)) t3) (engagementRateOf (metricsIG 7)) t4)
        (engagementRateOf (metricsIG 6)) t5) := by
    have h2 := record_lookup_self (record_post_performance (record_post_performance
      (record_post_performance (record_post_performance store (metricsIG 5) t1)
      (metricsIG 6) t2) (metricsIG 5) t3) (metricsIG 7) t4) (metricsIG 6) t5
    rw [o5] at h2
    exact h2
  have hsc : (recordRate (recordRate (recordRate (recordRate (recordRate
      (newSlotFor "instagram" 19 2)
      (engagementRateOf (metricsIG 5)) t1) (engagementRateOf (metricsIG 6)) t2)
      (engagementRateOf (metricsIG 5)) t3) (engagementRateOf (metricsIG 7)) t4)
      (engagementRateOf (metricsIG 6)) t5).score = 14987/100000 := by
    norm_num [recordRate, newSlotFor, engagementRateOf, metricsIG]
  have hct : (recordRate (recordRate (recordRate (recordRate (recordRate
      (newSlotFor "instagram" 19 2)
      (engagementRateOf (metricsIG 5)) t1) (engagementRateOf (metricsIG 6)) t2)
      (engagementRateOf (metricsIG 5)) t3) (engagementRateOf (metricsIG 7)) t4)
      (engagementRateOf (metricsIG 6)) t5).sample_count = 5 := by
    simp [recordRate, newSlotFor]
  refine ⟨_, e5, hct, hsc, ?_⟩
  rw [hsc, abs_le]
  constructor <;> norm_num

/-- Witness for C6_scenario_b at the empty store and time zero. -/
theorem C6_scenario_b_witness :
    ∃ s : TimeSlot,
      slotGet ((dictGet
        (record_post_performance
          (record_post_performance
            (record_post_performance
              (record_post_performance
                (record_post_performance ([] : Store) (metricsIG 5) 0)
                (metricsIG 6) 0)
              (metricsIG 5) 0)
            (metricsIG 7) 0)
          (metricsIG 6) 0) "instagram").getD []) (19, 2) = some s ∧
      s.sample_count = 5 ∧ s.score = 14987/100000 ∧ |s.score - 6/100| ≤ 9/100 :=
  C6_scenario_b [] 0 0 0 0 0 rfl

/-- C6 counterexample: the five records of Scenario B leave the slot score
at 0.14987, which is not within 0.005 of 0.06, refuting the original
tolerance. -/
theorem C6_counterexample :
    (slotGet ((dictGet ([metricsIG 5, metricsIG 6, metricsIG 5, metricsIG 7, metricsIG 6].foldl
        (fun s m => record_post_performance s m 0) []) "instagram").getD []) (19, 2)).map
      (fun s => (s.sample_count, s.score)) = some (5, 14987/100000) ∧
    ¬(|(14987 : ℚ)/100000 - 6/100| ≤ 5/1000) := by
  constructor
  · norm_num [record_post_performance, dictGet, slotGet, slotSet, storeSet, recordRate,
      newSlotFor, oldSlotOf, engagementRateOf, metricsIG, List.foldl]
  · have habs : |(14987 : ℚ)/100000 - 6/100| = 8987/100000 := by
      rw [abs_of_nonneg] <;> norm_num
    rw [habs]
    norm_num

/-! ## EMA convergence -/

theorem iterateRecord_count (slot : TimeSlot) (r : ℚ) (t : ℤ) :
    ∀ n : ℕ, (iterateRecord slot r t n).sample_count = slot.sample_count + n := by
  intro n
  induction n with
  | zero => simp [iterateRecord]
  | succ m ih => simp [iterateRecord, recordRate, ih]; omega

theorem iterateRecord_err (slot : TimeSlot) (r : ℚ) (t : ℤ) (n : ℕ) :
    |(iterateRecord slot r t n).score - r| ≤
      |slot.score - r| * ((slot.sample_count : ℚ) + 3) / ((slot.sample_count : ℚ) + n + 3) := by
  induction n with
  | zero =>
    have hpos : (0 : ℚ) < (slot.sample_count : ℚ) + 3 := by positivity
    simp only [iterateRecord, Nat.cast_zero, add_zero]
    rw [mul_div_assoc, div_self (ne_of_gt hpos), mul_one]
  | succ m ih =>
    have hcount : ((iterateRecord slot r t m).sample_count : ℚ) = (slot.sample_count : ℚ) + m := by
      rw [iterateRecord_count]
      push_cast
      ring
    have hc3 : (0 : ℚ) < (slot.sample_count : ℚ) + m + 3 := by positivity
    have hc4 : (0 : ℚ) < (slot.sample_count : ℚ) + m + 4 := by positivity
    have halpha_le : min (3/10 : ℚ) (1 / (((iterateRecord slot r t m).sample_count : ℚ) + 1)) ≤ 3/10 :=
      min_le_left _ _
    have halpha_ge : 1 / ((slot.sample_count : ℚ) + m + 4) ≤
        min (3/10 : ℚ) (1 / (((iterateRecord slot r t m).sample_count : ℚ) + 1)) := by
      rw [hcount]
      apply le_min
      · rw [div_le_div_iff hc4 (by norm_num)]
        nlinarith [Nat.cast_nonneg (α := ℚ) slot.sample_count, Nat.cast_nonneg (α := ℚ) m]
      · apply div_le_div_of_nonneg_left (by norm_num) (by positivity)
        nlinarith [Nat.cast_nonneg (α := ℚ) m]
    have hstep : (iterateRecord slot r t (m + 1)).score - r =
        (1 - min (3/10 : ℚ) (1 / (((iterateRecord slot r t m).sample_count : ℚ) + 1))) *
          ((iterateRecord slot r t m).score - r) := by
      simp only [iterateRecord, recordRate]
      ring
    have hone : (0 : ℚ) ≤ 1 - min (3/10 : ℚ) (1 / (((iterateRecord slot r t m).sample_count : ℚ) + 1)) := by
      linarith
    rw [hstep, abs_mul, abs_of_nonneg hone]
    push_cast
    have hfactor : 1 - min (3/10 : ℚ) (1 / (((iterateRecord slot r t m).sample_count : ℚ) + 1)) ≤
        ((slot.sample_count : ℚ) + m + 3) / ((slot.sample_count : ℚ) + m + 4) := by
      have : ((slot.sample_count : ℚ) + m + 3) / ((slot.sample_count : ℚ) + m + 4) =
          1 - 1 / ((slot.sample_count : ℚ) + m + 4) := by
        field_simp
        ring
      rw [this]
      linarith
    have hB0 : (0 : ℚ) ≤ |slot.score - r| * ((slot.sample_count : ℚ) + 3) /
        ((slot.sample_count : ℚ) + m + 3) := by positivity
    calc (1 - min (3/10 : ℚ) (1 / (((iterateRecord slot r t m).sample_count : ℚ) + 1))) *
          |(iterateRecord slot r t m).score - r|
        ≤ (1 - min (3/10 : ℚ) (1 / (((iterateRecord slot r t m).sample_count : ℚ) + 1))) *
          (|slot.score - r| * ((slot.sample_count : ℚ) + 3) / ((slot.sample_count : ℚ) + m + 3)) :=
          mul_le_mul_of_nonneg_left ih hone
      _ ≤ (((slot.sample_count : ℚ) + m + 3) / ((slot.sample_count : ℚ) + m + 4)) *
          (|slot.score - r| * ((slot.sample_count : ℚ) + 3) / ((slot.sample_count : ℚ) + m + 3)) :=
          mul_le_mul_of_nonneg_right hfactor hB0
      _ = |slot.score - r| * ((slot.sample_count : ℚ) + 3) / ((slot.sample_count : ℚ) + ((m : ℚ) + 1) + 3) := by
          field_simp
          ring

/-- C7: iterated recording with a constant engagement rate r in [0, 1]
converges the slot score to r: for every positive tolerance there is a
number of samples beyond which the score stays within the tolerance
of r. -/
theorem C7_ema_convergence (slot : TimeSlot) (r : ℚ) (t : ℤ)
    (h0 : 0 ≤ r) (h1 : r ≤ 1) (ε : ℚ) (hε : 0 < ε) :
    ∃ N : ℕ, ∀ n : ℕ, N ≤ n → |(iterateRecord slot r t n).score - r| ≤ ε := by
  refine ⟨⌈(|slot.score - r| * ((slot.sample_count : ℚ) + 3)) / ε⌉₊, ?_⟩
  intro n hn
  refine le_trans (iterateRecord_err slot r t n) ?_
  rw [div_le_iff (by positivity)]
  have h2 : (|slot.score - r| * ((slot.sample_count : ℚ) + 3)) / ε ≤
      (⌈(|slot.score - r| * ((slot.sample_count : ℚ) + 3)) / ε⌉₊ : ℚ) := Nat.le_ceil _
  have h3 : ((⌈(|slot.score - r| * ((slot.sample_count : ℚ) + 3)) / ε⌉₊ : ℕ) : ℚ) ≤ (n : ℚ) := by
    exact_mod_cast hn
  rw [div_le_iff hε] at h2
  have h4 : |slot.score - r| * ((slot.sample_count : ℚ) + 3) ≤ ε * n := by
    calc |slot.score - r| * ((slot.sample_count : ℚ) + 3)
        ≤ (⌈(|slot.score - r| * ((slot.sample_count : ℚ) + 3)) / ε⌉₊ : ℚ) * ε := h2
      _ ≤ (n : ℚ) * ε := mul_le_mul_of_nonneg_right h3 (le_of_lt hε)
      _ = ε * n := mul_comm _ _
  have h5 : ε * (n : ℚ) ≤ ε * ((slot.sample_count : ℚ) + n + 3) := by
    apply mul_le_mul_of_nonneg_left _ (le_of_lt hε)
    have := Nat.cast_nonneg (α := ℚ) slot.sample_count
    linarith
  linarith

/-- Witness for C7 at a concrete slot, rate one half and tolerance one
tenth. -/
theorem C7_ema_convergence_witness :
    ∃ N : ℕ, ∀ n : ℕ, N ≤ n → |(iterateRecord slotIG (1/2) 0 n).score - 1/2| ≤ 1/10 :=
  C7_ema_convergence slotIG (1/2) 0 (by norm_num) (by norm_num) (1/10) (by norm_num)

/-! ## ScoringEngine against the spec formula -/

/-- C3: for a slot whose last_updated is set, the dynamic score is exactly
the clamp formula stated by the spec — score times exp(-days/30) decay,
plus 0.2 confidence boost, plus the capped sample factor, plus the
Monday/Friday/first-of-month chain and the weekend event bump — and the
result always lies in [0, 1].  The exp interpretation is abstract and
shared by both sides. -/
theorem C3_dynamic_score (expFn : ℚ → ℚ) (slot : TimeSlot) (t : ℤ) (lu : ℤ)
    (h : slot.last_updated = some lu) :
    calculate_dynamic_score expFn slot t = scoreSpecFormula expFn slot t lu ∧
    0 ≤ calculate_dynamic_score expFn slot t ∧ calculate_dynamic_score expFn slot t ≤ 1 := by
  refine ⟨?_, ?_, ?_⟩
  · have hiff : (5 ≤ weekdayOf t) ↔ (weekdayOf t = 5 ∨ weekdayOf t = 6) := by
      unfold weekdayOf
      omega
    simp only [calculate_dynamic_score, scoreSpecFormula, get_day_adjustment, dayAdjSpec,
      get_event_adjustment, eventAdjSpec, h, hiff]
    norm_num
  · simp only [calculate_dynamic_score]
    exact le_min (le_max_right _ _) zero_le_one
  · simp only [calculate_dynamic_score]
    exact min_le_right _ _

/-- Witness for C3 at a concrete slot and target instant. -/
theorem C3_dynamic_score_witness :
    calculate_dynamic_score expOne slotTS 68400 = scoreSpecFormula expOne slotTS 68400 0 ∧
    0 ≤ calculate_dynamic_score expOne slotTS 68400 ∧
    calculate_dynamic_score expOne slotTS 68400 ≤ 1 :=
  C3_dynamic_score expOne slotTS 68400 0 rfl

/-! ## Fallback anchoring arithmetic -/

theorem fallbackTarget_props (now h d : ℤ) (hh : 0 ≤ h ∧ h < 24) (hd : 0 ≤ d ∧ d < 7) :
    now < fallbackTarget now h d ∧ fallbackTarget now h d ≤ now + 604800 ∧
    secOfDay (fallbackTarget now h d) = h * 3600 ∧ hourOf (fallbackTarget now h d) = h ∧
    weekdayOf (fallbackTarget now h d) = d := by
  simp only [fallbackTarget, replaceHour, addDays, weekdayOf, epochDays, hourOf, secOfDay]
  split_ifs with hc <;> omega

theorem fallbackTarget_min (now h d : ℤ) (hh : 0 ≤ h ∧ h < 24) (hd : 0 ≤ d ∧ d < 7)
    (t2 : ℤ) (h1 : now < t2) (h2 : secOfDay t2 = h * 3600) (h3 : weekdayOf t2 = d) :
    fallbackTarget now h d ≤ t2 := by
  simp only [fallbackTarget, replaceHour, addDays, weekdayOf, epochDays, hourOf, secOfDay] at *
  split_ifs with hc <;> omega

theorem defaults_head_bounds (p : String) (dts : List (ℤ × ℤ)) (hp : defaultsGet p = some dts) :
    0 ≤ (dts.headD (12, 1)).1 ∧ (dts.headD (12, 1)).1 < 24 ∧
    0 ≤ (dts.headD (12, 1)).2 ∧ (dts.headD (12, 1)).2 < 7 := by
  unfold defaultsGet at hp
  cases hf : platform_defaults.find? (fun e => e.1 = p) with
  | none => rw [hf] at hp; exact absurd hp (by simp)
  | some e =>
    rw [hf] at hp
    simp only [Option.some.injEq] at hp
    subst hp
    have he := List.mem_of_find?_eq_some hf
    fin_cases he <;> norm_num

theorem get_optimal_time_platform (expFn : ℚ → ℚ) (store : Store) (p : String) (now : ℤ)
    (exclude_hours : List ℤ) (min_gap_hours : ℤ) :
    (get_optimal_time expFn store p now exclude_hours min_gap_hours).platform = p := by
  simp only [get_optimal_time]
  cases hs : sortDesc (get_candidate_slots expFn store p now exclude_hours min_gap_hours) with
  | nil => simp [hs, get_fallback_recommendation]
  | cons b rest => simp [hs]

theorem get_candidate_slots_empty (expFn : ℚ → ℚ) (p : String) (now : ℤ)
    (exclude_hours : List ℤ) (min_gap_hours : ℤ) :
    get_candidate_slots expFn [] p now exclude_hours min_gap_hours = [] := by
  unfold get_candidate_slots
  simp [dictGet]

theorem get_optimal_time_empty_store (expFn : ℚ → ℚ) (p : String) (now : ℤ)
    (exclude_hours : List ℤ) (min_gap_hours : ℤ) :
    get_optimal_time expFn [] p now exclude_hours min_gap_hours =
      get_fallback_recommendation p now := by
  simp only [get_optimal_time, get_candidate_slots_empty]
  rfl

/-- C4: for every platform of the default table and every current time,
getOptimalTime is total and returns a recommendation for that platform
whatever the store; with an empty store it returns exactly the fallback,
which carries score 0.5 and confidence 0.1 and is anchored to the next
strictly-future occurrence of the first default slot of the platform:
the target is after now, at the wanted hour and weekday with zeroed
minutes and seconds, and no earlier instant with that profile lies
strictly after now. -/
theorem C4_fallback_guarantee (p : String) (dts : List (ℤ × ℤ)) (hp : defaultsGet p = some dts)
    (now : ℤ) (expFn : ℚ → ℚ) :
    (∀ store exclude_hours min_gap_hours,
      (get_optimal_time expFn store p now exclude_hours min_gap_hours).platform = p) ∧
    get_optimal_time expFn [] p now [] 2 = get_fallback_recommendation p now ∧
    (get_fallback_recommendation p now).score = 1/2 ∧
    (get_fallback_recommendation p now).confidence = 1/10 ∧
    (get_fallback_recommendation p now).datetime_utc =
      fallbackTarget now (dts.headD (12, 1)).1 (dts.headD (12, 1)).2 ∧
    now < fallbackTarget now (dts.headD (12, 1)).1 (dts.headD (12, 1)).2 ∧
    secOfDay (fallbackTarget now (dts.headD (12, 1)).1 (dts.headD (12, 1)).2) =
      (dts.headD (12, 1)).1 * 3600 ∧
    hourOf (fallbackTarget now (dts.headD (12, 1)).1 (dts.headD (12, 1)).2) =
      (dts.headD (12, 1)).1 ∧
    weekdayOf (fallbackTarget now (dts.headD (12, 1)).1 (dts.headD (12, 1)).2) =
      (dts.headD (12, 1)).2 ∧
    (∀ t2, now < t2 → secOfDay t2 = (dts.headD (12, 1)).1 * 3600 →
      weekdayOf t2 = (dts.headD (12, 1)).2 →
      fallbackTarget now (dts.headD (12, 1)).1 (dts.headD (12, 1)).2 ≤ t2) := by
  have hb := defaults_head_bounds p dts hp
  have hprops := fallbackTarget_props now (dts.headD (12, 1)).1 (dts.headD (12, 1)).2
    ⟨hb.1, hb.2.1⟩ ⟨hb.2.2.1, hb.2.2.2⟩
  refine ⟨fun store excl gap => get_optimal_time_platform expFn store p now excl gap,
    get_optimal_time_empty_store expFn p now [] 2, rfl, rfl, ?_, hprops.1, hprops.2.2.1,
    hprops.2.2.2.1, hprops.2.2.2.2, ?_⟩
  · simp [get_fallback_recommendation, hp]
  · intro t2 h1 h2 h3
    exact fallbackTarget_min now (dts.headD (12, 1)).1 (dts.headD (12, 1)).2
      ⟨hb.1, hb.2.1⟩ ⟨hb.2.2.1, hb.2.2.2⟩ t2 h1 h2 h3

/-- Witness for C4: with an empty store the instagram request returns the
fallback recommendation. -/
theorem C4_fallback_guarantee_witness :
    get_optimal_time expOne [] "instagram" 0 [] 2 = get_fallback_recommendation "instagram" 0 :=
  (C4_fallback_guarantee "instagram" [(19, 0), (19, 1), (19, 2), (19, 3), (19, 4)]
    rfl 0 expOne).2.1

/-! ## Unknown platforms -/

/-- C8 amended: the source has no error path for unknown platforms: for a
platform absent from the default table, get_optimal_time still returns a
recommendation for that platform on every store; with an empty store it
is the fallback anchored to the compiled-in default slot (12, 1) — noon
on Tuesday — with score 0.5 and confidence 0.1, not a typed InvalidInput
error. -/
theorem C8_unknown_platform (p : String) (hp : defaultsGet p = none) (now : ℤ)
    (expFn : ℚ → ℚ) :
    (∀ store exclude_hours min_gap_hours,
      (get_optimal_time expFn store p now exclude_hours min_gap_hours).platform = p) ∧
    get_optimal_time expFn [] p now [] 2 = get_fallback_recommendation p now ∧
    (get_fallback_recommendation p now).score = 1/2 ∧
    (get_fallback_recommendation p now).confidence = 1/10 ∧
    (get_fallback_recommendation p now).datetime_utc = fallbackTarget now 12 1 ∧
    now < fallbackTarget now 12 1 ∧ hourOf (fallbackTarget now 12 1) = 12 ∧
    weekdayOf (fallbackTarget now 12 1) = 1 := by
  have hprops := fallbackTarget_props now 12 1 (by norm_num) (by norm_num)
  refine ⟨fun store excl gap => get_optimal_time_platform expFn store p now excl gap,
    get_optimal_time_empty_store expFn p now [] 2, rfl, rfl, ?_, hprops.1,
    hprops.2.2.2.1, hprops.2.2.2.2⟩
  simp [get_fallback_recommendation, hp]

/-- Witness for C8_unknown_platform at the platform name myspace. -/
theorem C8_unknown_platform_witness :
    (get_fallback_recommendation "myspace" 0).score = 1/2 :=
  (C8_unknown_platform "myspace" rfl 0 expOne).2.2.1

/-- C8 counterexample: for the unknown platform myspace the call returns a
plain recommendation — the Tuesday-noon fallback with score 0.5 — rather
than any typed error; no error value exists in the return type of the
source function. -/
theorem C8_counterexample :
    defaultsGet "myspace" = none ∧
    get_optimal_time expOne [] "myspace" 0 [] 2 = get_fallback_recommendation "myspace" 0 ∧
    (get_fallback_recommendation "myspace" 0).score = 1/2 ∧
    (get_fallback_recommendation "myspace" 0).platform = "myspace" ∧
    hourOf (get_fallback_recommendation "myspace" 0).datetime_utc = 12 ∧
    weekdayOf (get_fallback_recommendation "myspace" 0).datetime_utc = 1 := by
  refine ⟨rfl, get_optimal_time_empty_store expOne "myspace" 0 [] 2, rfl, rfl, ?_, ?_⟩
  · decide
  · decide

/-! ## CandidateGenerator structure -/

theorem candidateOfEntry_some {expFn : ℚ → ℚ} {st : ℤ} {excl : List ℤ} {g : ℤ}
    {td dow : ℤ} {e : (ℤ × ℤ) × TimeSlot} {c : Candidate}
    (h : candidateOfEntry expFn st excl g td dow e = some c) :
    c.hour = e.1.1 ∧ c.day_of_week = e.1.2 ∧ c.base_slot = e.2 ∧
    c.datetime = replaceHour td e.1.1 ∧ e.1.2 = dow ∧ e.1.1 ∉ excl ∧ st < c.datetime ∧
    c.score = calculate_dynamic_score expFn e.2 (replaceHour td e.1.1) ∧
    c.confidence = e.2.confidence := by
  simp only [candidateOfEntry] at h
  split_ifs at h with h1 h2 h3 h4
  simp only [Option.some.injEq] at h
  subst h
  exact ⟨rfl, rfl, rfl, rfl, not_not.mp h1, h2, not_le.mp h3, rfl, rfl⟩

theorem mem_get_candidate_slots {expFn : ℚ → ℚ} {store : Store} {p : String} {now : ℤ}
    {excl : List ℤ} {gap : ℤ} {c : Candidate}
    (h : c ∈ get_candidate_slots expFn store p now excl gap) :
    ∃ off : ℕ, off < 7 ∧ ∃ e ∈ (dictGet store p).getD [],
      candidateOfEntry expFn now excl gap (addDays now (off : ℤ))
        (weekdayOf (addDays now (off : ℤ))) e = some c := by
  simp only [get_candidate_slots, List.mem_flatMap, List.mem_filterMap, List.mem_range] at h
  obtain ⟨off, hoff, e, he, hce⟩ := h
  exact ⟨off, hoff, e, he, hce⟩

/-- C9: every generated candidate matches a day of the 7-day horizon, has
an hour outside the exclusion list, lies strictly in the future and comes
from a stored entry of the platform; and the minimum-gap check is a stub
reporting no violation on all inputs, so it never eliminates any
candidate. -/
theorem C9_candidate_generation (expFn : ℚ → ℚ) (store : Store) (p : String) (now : ℤ)
    (exclude_hours : List ℤ) (min_gap_hours : ℤ) :
    (∀ c ∈ get_candidate_slots expFn store p now exclude_hours min_gap_hours,
      (∃ off : ℕ, off < 7 ∧ c.day_of_week = weekdayOf (addDays now (off : ℤ))) ∧
      c.hour ∉ exclude_hours ∧ now < c.datetime ∧
      ((c.hour, c.day_of_week), c.base_slot) ∈ (dictGet store p).getD []) ∧
    (∀ t g, violates_min_gap t g = false) := by
  refine ⟨?_, fun t g => rfl⟩
  intro c hc
  obtain ⟨off, hoff, e, he, hce⟩ := mem_get_candidate_slots hc
  obtain ⟨hh, hd, hb, _, hdow, hnex, hfut, _, _⟩ := candidateOfEntry_some hce
  refine ⟨⟨off, hoff, by rw [hd, hdow]⟩, by rwa [hh], hfut, ?_⟩
  rw [hh, hd, hb]
  simpa using he

/-- Witness for C9: the single candidate generated from storeIG at
instant 0. -/
theorem C9_candidate_generation_witness :
    (∃ off : ℕ, off < 7 ∧ candIG.day_of_week = weekdayOf (addDays 0 (off : ℤ))) ∧
    candIG.hour ∉ ([] : List ℤ) ∧ (0 : ℤ) < candIG.datetime ∧
    ((candIG.hour, candIG.day_of_week), candIG.base_slot) ∈ (dictGet storeIG "instagram").getD [] := by
  have hw : weekdayOf 68400 = 3 := by decide
  have hw0 : weekdayOf (addDays 0 0) = 3 := by decide
  have hdom : dayOfMonth 68400 = 1 := by decide
  have hrep : replaceHour (addDays 0 0) 19 = 68400 := by decide
  have hscore : calculate_dynamic_score expOne slotIG 68400 = 1/50 := by
    simp only [calculate_dynamic_score, get_day_adjustment, get_event_adjustment,
      slotIG, expOne, hw, hdom]
    norm_num
  have hce : candidateOfEntry expOne 0 [] 2 (addDays 0 0) (weekdayOf (addDays 0 0))
      ((19, 3), slotIG) = some candIG := by
    simp only [candidateOfEntry, hw0, hrep, violates_min_gap]
    rw [if_neg (by norm_num), if_neg (by simp), if_neg (by norm_num), if_neg (by simp)]
    rw [hscore]
    rfl
  have hmem : candIG ∈ get_candidate_slots expOne storeIG "instagram" 0 [] 2 := by
    simp only [get_candidate_slots, List.mem_flatMap, List.mem_filterMap, List.mem_range]
    exact ⟨0, by norm_num, ((19, 3), slotIG), by simp [storeIG, dictGet], hce⟩
  exact (C9_candidate_generation expOne storeIG "instagram" 0 [] 2).1 candIG hmem

/-! ## Selection and multi-platform coordination -/

theorem mem_insertDesc {c x : Candidate} {l : List Candidate}
    (h : x ∈ insertDesc c l) : x = c ∨ x ∈ l := by
  induction l with
  | nil => simpa [insertDesc] using h
  | cons y ys ih =>
    simp only [insertDesc] at h
    split_ifs at h with hy
    · simpa using h
    · rcases List.mem_cons.mp h with h2 | h2
      · exact Or.inr (by simp [h2])
      · rcases ih h2 with h3 | h3
        · exact Or.inl h3
        · exact Or.inr (by simp [h3])

theorem mem_sortDesc {x : Candidate} {l : List Candidate}
    (h : x ∈ sortDesc l) : x ∈ l := by
  induction l with
  | nil => simpa [sortDesc] using h
  | cons y ys ih =>
    simp only [sortDesc] at h
    rcases mem_insertDesc h with h2 | h2
    · simp [h2]
    · exact List.mem_cons_of_mem _ (ih h2)

theorem length_insertDesc (c : Candidate) (l : List Candidate) :
    (insertDesc c l).length = l.length + 1 := by
  induction l with
  | nil => rfl
  | cons y ys ih =>
    simp only [insertDesc]
    split_ifs
    · rfl
    · simp [ih]

theorem length_sortDesc (l : List Candidate) : (sortDesc l).length = l.length := by
  induction l with
  | nil => rfl
  | cons y ys ih => simp [sortDesc, length_insertDesc, ih]

theorem get_optimal_time_best (expFn : ℚ → ℚ) (store : Store) (p : String) (now : ℤ)
    (excl : List ℤ) (gap : ℤ)
    (h : get_candidate_slots expFn store p now excl gap ≠ []) :
    ∃ best ∈ get_candidate_slots expFn store p now excl gap,
      (get_optimal_time expFn store p now excl gap).datetime_utc = best.datetime := by
  simp only [get_optimal_time]
  cases hs : sortDesc (get_candidate_slots expFn store p now excl gap) with
  | nil =>
    exfalso
    apply h
    have := length_sortDesc (get_candidate_slots expFn store p now excl gap)
    rw [hs] at this
    exact List.length_eq_zero.mp this.symm
  | cons b rest =>
    refine ⟨b, mem_sortDesc (hs ▸ List.mem_cons_self b rest), by simp [hs]⟩

theorem hourOf_bounds (t : ℤ) : 0 ≤ hourOf t ∧ hourOf t < 24 := by
  simp only [hourOf, secOfDay]
  omega

theorem hourOf_replaceHour (t h : ℤ) (h0 : 0 ≤ h) (h24 : h < 24) :
    hourOf (replaceHour t h) = h := by
  simp only [hourOf, secOfDay, replaceHour, epochDays]
  omega

theorem mem_intRange (a b x : ℤ) : x ∈ intRange a b ↔ a ≤ x ∧ x < b := by
  unfold intRange
  constructor
  · intro h
    obtain ⟨i, hi, hx⟩ := List.mem_map.mp h
    have hi2 := List.mem_range.mp hi
    have hx2 : a + (i : ℤ) = x := hx
    omega
  · intro hx
    refine List.mem_map.mpr ⟨(x - a).toNat, List.mem_range.mpr (by omega), ?_⟩
    show a + (((x - a).toNat : ℕ) : ℤ) = x
    omega

theorem get_candidate_slots_no_platform (expFn : ℚ → ℚ) (store : Store) (p : String)
    (now : ℤ) (excl : List ℤ) (gap : ℤ) (h : dictGet store p = none) :
    get_candidate_slots expFn store p now excl gap = [] := by
  simp [get_candidate_slots, h]

theorem get_optimal_time_no_platform (expFn : ℚ → ℚ) (store : Store) (p : String)
    (now : ℤ) (excl : List ℤ) (gap : ℤ) (h : dictGet store p = none) :
    get_optimal_time expFn store p now excl gap = get_fallback_recommendation p now := by
  simp only [get_optimal_time, get_candidate_slots_no_platform expFn store p now excl gap h]
  rfl

theorem multi_schedule_pair (expFn : ℚ → ℚ) (store : Store) (now : ℤ) :
    get_multi_platform_schedule expFn store ["linkedin", "twitter"] 2 now =
      [get_optimal_time expFn store "linkedin" now [] 2,
       get_optimal_time expFn store "twitter" now
         (excludeHoursOf [(get_optimal_time expFn store "linkedin" now [] 2).datetime_utc] 2) 2] := by
  have hsort : sortByPriority ["linkedin", "twitter"] = ["linkedin", "twitter"] := by decide
  simp only [get_multi_platform_schedule, hsort, List.foldl, multiStep]
  simp [excludeHoursOf]

/-- C5 amended: getMultiPlatformSchedule over linkedin and twitter first
serves linkedin and then twitter with the band of hours within two hours
of the linkedin choice excluded; whenever the twitter recommendation is
produced from candidates (not from the exclusion-blind fallback) and the
stored twitter slot hours are in range, the two recommended hours of day
are more than two apart.  With an empty store both platforms fall back
and the hours can collide (C5_counterexample). -/
theorem C5_multi_gap (expFn : ℚ → ℚ) (store : Store) (now : ℤ)
    (hwf : ∀ pm ∈ store, ∀ e ∈ pm.2, 0 ≤ e.1.1 ∧ e.1.1 < 24) :
    get_multi_platform_schedule expFn store ["linkedin", "twitter"] 2 now =
      [get_optimal_time expFn store "linkedin" now [] 2,
       get_optimal_time expFn store "twitter" now
         (excludeHoursOf [(get_optimal_time expFn store "linkedin" now [] 2).datetime_utc] 2) 2] ∧
    (get_candidate_slots expFn store "twitter" now
        (excludeHoursOf [(get_optimal_time expFn store "linkedin" now [] 2).datetime_utc] 2) 2 ≠ [] →
      ¬(|hourOf (get_optimal_time expFn store "twitter" now
            (excludeHoursOf [(get_optimal_time expFn store "linkedin" now [] 2).datetime_utc] 2)
            2).datetime_utc -
          hourOf (get_optimal_time expFn store "linkedin" now [] 2).datetime_utc| ≤ 2)) := by
  refine ⟨multi_schedule_pair expFn store now, ?_⟩
  intro hne habs
  obtain ⟨best, hbmem, hbdt⟩ := get_optimal_time_best expFn store "twitter" now
    (excludeHoursOf [(get_optimal_time expFn store "linkedin" now [] 2).datetime_utc] 2) 2 hne
  obtain ⟨off, hoff, e, he, hce⟩ := mem_get_candidate_slots hbmem
  obtain ⟨hh, _, _, hdt, _, hnex, _, _, _⟩ := candidateOfEntry_some hce
  have hhb : 0 ≤ e.1.1 ∧ e.1.1 < 24 := by
    cases hdg : dictGet store "twitter" with
    | none => rw [hdg] at he; simp at he
    | some m =>
      rw [hdg] at he
      exact hwf _ (mem_of_dictGet hdg) _ (by simpa using he)
  have hbest_hour : hourOf (get_optimal_time expFn store "twitter" now
      (excludeHoursOf [(get_optimal_time expFn store "linkedin" now [] 2).datetime_utc] 2)
      2).datetime_utc = e.1.1 := by
    rw [hbdt, hdt]
    exact hourOf_replaceHour _ _ hhb.1 hhb.2
  have h1b := hourOf_bounds (get_optimal_time expFn store "linkedin" now [] 2).datetime_utc
  rw [hbest_hour] at habs
  rw [abs_le] at habs
  apply hnex
  simp only [excludeHoursOf, List.flatMap_cons, List.flatMap_nil, List.append_nil,
    List.mem_map]
  refine ⟨e.1.1 - hourOf (get_optimal_time expFn store "linkedin" now [] 2).datetime_utc,
    (mem_intRange _ _ _).mpr ⟨by omega, by omega⟩, by omega⟩

/-- C5 counterexample: with an empty store both recommendations are
fallbacks (the fallback ignores the exclusion list), landing on Tuesday
8:00 for linkedin and Tuesday 9:00 for twitter — hour-of-day values one
hour apart, within the two-hour gap the claim forbids. -/
theorem C5_counterexample :
    (get_multi_platform_schedule expOne [] ["linkedin", "twitter"] 2 0).map
      (fun r => hourOf r.datetime_utc) = [8, 9] ∧ |(9 : ℤ) - 8| ≤ 2 := by
  constructor
  · decide
  · decide

/-- Witness for C5 at a store holding one twitter slot: linkedin falls
back to Tuesday 8:00, the twitter candidate at hour 15 survives the
exclusion band 6..10, and the chosen hours are more than two apart. -/
theorem C5_multi_gap_witness :
    ¬(|hourOf (get_optimal_time expOne storeTW "twitter" 0
          (excludeHoursOf [(get_optimal_time expOne storeTW "linkedin" 0 [] 2).datetime_utc] 2)
          2).datetime_utc -
        hourOf (get_optimal_time expOne storeTW "linkedin" 0 [] 2).datetime_utc| ≤ 2) := by
  have hlk : dictGet storeTW "linkedin" = none := by decide
  have hrec1 : get_optimal_time expOne storeTW "linkedin" 0 [] 2 =
      get_fallback_recommendation "linkedin" 0 :=
    get_optimal_time_no_platform expOne storeTW "linkedin" 0 [] 2 hlk
  have hdt1 : (get_fallback_recommendation "linkedin" 0).datetime_utc = 460800 := by decide
  have hexcl : excludeHoursOf [(get_optimal_time expOne storeTW "linkedin" 0 [] 2).datetime_utc] 2 =
      [6, 7, 8, 9, 10] := by
    rw [hrec1, hdt1]
    decide
  have hw0 : weekdayOf (addDays 0 0) = 3 := by decide
  have hdom : dayOfMonth 54000 = 1 := by decide
  have hrep : replaceHour (addDays 0 0) 15 = 54000 := by decide
  have hw54 : weekdayOf 54000 = 3 := by decide
  have hscore : calculate_dynamic_score expOne slotTW 54000 = 1/50 := by
    simp only [calculate_dynamic_score, get_day_adjustment, get_event_adjustment,
      slotTW, expOne, hw54, hdom]
    norm_num
  have hce : candidateOfEntry expOne 0 [6, 7, 8, 9, 10] 2 (addDays 0 0)
      (weekdayOf (addDays 0 0)) ((15, 3), slotTW) = some candTW := by
    simp only [candidateOfEntry, hw0, hrep, violates_min_gap]
    rw [if_neg (by norm_num), if_neg (by decide), if_neg (by norm_num), if_neg (by simp)]
    rw [hscore]
    rfl
  have hmem : candTW ∈ get_candidate_slots expOne storeTW "twitter" 0 [6, 7, 8, 9, 10] 2 := by
    simp only [get_candidate_slots, List.mem_flatMap, List.mem_filterMap, List.mem_range]
    exact ⟨0, by norm_num, ((15, 3), slotTW), by simp [storeTW, dictGet], hce⟩
  have hne : get_candidate_slots expOne storeTW "twitter" 0
      (excludeHoursOf [(get_optimal_time expOne storeTW "linkedin" 0 [] 2).datetime_utc] 2) 2 ≠ [] := by
    rw [hexcl]
    exact List.ne_nil_of_mem hmem
  exact (C5_multi_gap expOne storeTW 0 (by decide)).2 hne

/-! ## Persistence roundtrip -/

theorem parse_render_bounded : ∀ (h : Fin 24) (d : Fin 7),
    parsePairKey (pyStrPairChars (h.1 : ℤ) (d.1 : ℤ)) = some ((h.1 : ℤ), (d.1 : ℤ)) := by
  decide

theorem parse_render (h d : ℤ) (hh : 0 ≤ h ∧ h < 24) (hd : 0 ≤ d ∧ d < 7) :
    parsePairKey (pyStrPairChars h d) = some (h, d) := by
  have h1 : h = ((h.toNat : ℕ) : ℤ) := by omega
  have d1 : d = ((d.toNat : ℕ) : ℤ) := by omega
  rw [h1, d1]
  exact parse_render_bounded ⟨h.toNat, by omega⟩ ⟨d.toNat, by omega⟩

theorem slots_roundtrip (slots : SlotMap)
    (hb : ∀ e ∈ slots, 0 ≤ e.1.1 ∧ e.1.1 < 24 ∧ 0 ≤ e.1.2 ∧ e.1.2 < 7) :
    (slots.map (fun e => (pyStrPairChars e.1.1 e.1.2, e.2))).mapM
      (fun e => (parsePairKey e.1).map (fun k => (k, e.2))) = some slots := by
  induction slots with
  | nil => rfl
  | cons e es ih =>
    have hbe := hb e (List.mem_cons_self _ _)
    simp only [List.map_cons, List.mapM_cons]
    rw [parse_render e.1.1 e.1.2 ⟨hbe.1, hbe.2.1⟩ ⟨hbe.2.2.1, hbe.2.2.2⟩,
      ih (fun x hx => hb x (List.mem_cons_of_mem _ hx))]
    simp

/-- C10: saving a slot grid with the string-keyed per-platform encoding of
_save_data and decoding it with the key evaluation of _load_data
reconstructs the original grid, for grids whose keys are in-range hours
and weekdays (the shape of every (hour, day_of_week) key of the data
model). -/
theorem C10_save_load_roundtrip (store : Store)
    (hb : ∀ pm ∈ store, ∀ e ∈ pm.2, 0 ≤ e.1.1 ∧ e.1.1 < 24 ∧ 0 ≤ e.1.2 ∧ e.1.2 < 7) :
    load_data (save_data store) = some store := by
  induction store with
  | nil => rfl
  | cons pm rest ih =>
    have h1 := slots_roundtrip pm.2 (fun e he => hb pm (List.mem_cons_self _ _) e he)
    have h2 := ih (fun q hq e he => hb q (List.mem_cons_of_mem _ hq) e he)
    simp only [save_data, load_data, List.map_cons, List.mapM_cons] at h2 ⊢
    rw [h1, h2]
    simp

/-- Witness for C10 on the default-initialized store. -/
theorem C10_save_load_roundtrip_witness :
    load_data (save_data (initialize_default_slots 0)) = some (initialize_default_slots 0) :=
  C10_save_load_roundtrip (initialize_default_slots 0) (by decide)
